import Mathlib

/-!
Verification of the transfer lifecycle subsystem of the imagineread-lite
backend: code generation (`app/services/code_generator.py`), transfer
metadata persistence (`app/services/transfer_service.py`), byte storage
(`app/services/storage_service.py`) and the upload/download flows
(`app/routers/upload.py`, `app/routers/download.py`).

Modelling conventions:
- Python `datetime` values are modelled as integer seconds since an epoch,
  so `timedelta(hours=h)` is `h * 3600` and "one second later" is `+ 1`.
- `datetime.utcnow()` is an explicit `now : Int` parameter.
- `secrets.choice(alphabet)` is modelled by an arbitrary stream
  `rand : Nat → Nat` of draws, indexed by a running offset; the chosen
  character is `alphabet[rand i % alphabet.length]`, which ranges over
  exactly the possible outcomes of the source call.
- The local JSON database (a Python `dict` keyed by code) is an
  association list `Db`; dict update is modelled by erase-then-append,
  which preserves the lookup semantics the claims depend on.
- Python `raise` in modelled library calls is `Except.error`.
- Byte strings are `List Nat`.
-/

namespace ImagineRead

/-! ## config.py -/

/-- config.py: `FREE_FILE_SIZE_LIMIT_BYTES = FREE_FILE_SIZE_LIMIT_MB * 1024 * 1024`
with the default `FREE_FILE_SIZE_LIMIT_MB = 30`. -/
def FREE_FILE_SIZE_LIMIT_BYTES : Nat := 30 * 1024 * 1024

/-- config.py: `ALLOWED_EXTENSIONS = {"pdf", "cbz", "cbr", "epub"}`. -/
def ALLOWED_EXTENSIONS : List String := ["pdf", "cbz", "cbr", "epub"]

/-! ## transfer_service.py : class Transfer -/

/-- The `Transfer` model of transfer_service.py (one record per upload). -/
structure Transfer where
  code : String
  original_name : String
  file_type : String
  file_size_bytes : Int
  storage_path : String
  is_premium : Bool
  user_id : Option String
  created_at : Int
  expires_at : Option Int
  download_count : Int
  deriving DecidableEq

/-- `Transfer.__init__`.  `FREE_EXPIRY_HOURS` is the configured expiry
duration from config.py (default 24), kept as a parameter; `now` stands for
`datetime.utcnow()`.  The Python code sets
`created_at = created_at or utcnow()` and then, only when `expires_at` is
`None` and the transfer is not premium,
`expires_at = created_at + timedelta(hours=FREE_EXPIRY_HOURS)`. -/
def Transfer.make (FREE_EXPIRY_HOURS : Int) (now : Int)
    (code original_name file_type : String) (file_size_bytes : Int)
    (storage_path : String) (is_premium : Bool) (user_id : Option String)
    (created_at expires_at : Option Int) (download_count : Int) : Transfer :=
  let createdAt := created_at.getD now
  let expiresAt :=
    if expires_at.isNone && !is_premium then
      some (createdAt + FREE_EXPIRY_HOURS * 3600)
    else expires_at
  { code := code, original_name := original_name, file_type := file_type,
    file_size_bytes := file_size_bytes, storage_path := storage_path,
    is_premium := is_premium, user_id := user_id, created_at := createdAt,
    expires_at := expiresAt, download_count := download_count }

/-- `Transfer.is_expired`: `False` when `expires_at is None`, otherwise
`datetime.utcnow() > self.expires_at` (strict). -/
def Transfer.is_expired (now : Int) (t : Transfer) : Bool :=
  match t.expires_at with
  | none => false
  | some e => decide (e < now)

/-- `Transfer.to_dict` followed by `Transfer.from_dict` re-runs
`Transfer.__init__` with the stored `createdAt` (always present in a stored
document) and the stored `expiresAt`; all other stored fields pass through
unchanged.  This is the round trip the local `get` / `get_expired` perform
on every stored document. -/
def Transfer.roundtrip (FREE_EXPIRY_HOURS : Int) (d : Transfer) : Transfer :=
  Transfer.make FREE_EXPIRY_HOURS d.created_at d.code d.original_name
    d.file_type d.file_size_bytes d.storage_path d.is_premium d.user_id
    (some d.created_at) d.expires_at d.download_count

/-! ## transfer_service.py : LocalTransferService / FirestoreTransferService

The local JSON database maps `code -> transfer document`; a stored document
carries the same fields as a `Transfer`, so the database is an association
list from codes to `Transfer`. The Firestore collection is modelled by the
same state type, with the documented semantics of the client calls
(`set` upserts, `update` raises NotFound on an absent document, `delete`
succeeds whether or not the document exists). -/

abbrev Db : Type := List (String × Transfer)

/-- Python dict lookup `db.get(code)` / `code in db` on the JSON store. -/
def dbLookup : Db → String → Option Transfer
  | [], _ => none
  | (k, v) :: rest, c => if k = c then some v else dbLookup rest c

/-- Removal of a key, `del db[code]`. -/
def dbErase (db : Db) (c : String) : Db :=
  db.filter (fun p => p.1 ≠ c)

/-- Dict update `db[code] = doc` (upsert). -/
def dbInsert (db : Db) (c : String) (t : Transfer) : Db :=
  dbErase db c ++ [(c, t)]

/-- The stored documents, `db.values()`. -/
def dbValues (db : Db) : List Transfer :=
  db.map Prod.snd

/-- `LocalTransferService.create`: `db[transfer.code] = transfer.to_dict()`,
then returns the transfer. -/
def LocalTransferService.create (db : Db) (t : Transfer) : Db × Transfer :=
  (dbInsert db t.code t, t)

/-- `LocalTransferService.get`: dict lookup, `None` when absent, otherwise
`Transfer.from_dict(data)` (the to_dict/from_dict round trip). -/
def LocalTransferService.get (h : Int) (db : Db) (code : String) :
    Option Transfer :=
  (dbLookup db code).map (Transfer.roundtrip h)

/-- `LocalTransferService.exists`: `code in db`. -/
def LocalTransferService.existsCode (db : Db) (code : String) : Bool :=
  (dbLookup db code).isSome

/-- `LocalTransferService.increment_download_count`: returns `False` when
the code is absent (no write); otherwise bumps the stored
`downloadCount` field by one, saves, and returns `True`. -/
def LocalTransferService.increment_download_count (db : Db) (code : String) :
    Db × Bool :=
  match dbLookup db code with
  | none => (db, false)
  | some t =>
      (dbInsert db code { t with download_count := t.download_count + 1 },
       true)

/-- `LocalTransferService.delete`: removes the record and returns `True`
when present, otherwise returns `False` with no write. -/
def LocalTransferService.delete (db : Db) (code : String) : Db × Bool :=
  if (dbLookup db code).isSome then (dbErase db code, true) else (db, false)

/-- `LocalTransferService.get_expired`: rebuilds each stored document via
`Transfer.from_dict` and keeps those with `transfer.is_expired()`. -/
def LocalTransferService.get_expired (h now : Int) (db : Db) :
    List Transfer :=
  ((dbValues db).map (Transfer.roundtrip h)).filter (Transfer.is_expired now)

/-- `LocalTransferService.get_all_codes`: the key set of the store. -/
def LocalTransferService.get_all_codes (db : Db) : List String :=
  db.map Prod.fst

/-- `FirestoreTransferService.create`: `document(code).set(to_dict())`,
an upsert. -/
def FirestoreTransferService.create (db : Db) (t : Transfer) :
    Db × Transfer :=
  (dbInsert db t.code t, t)

/-- `FirestoreTransferService.get`: `doc.exists` guard, then
`Transfer.from_dict(doc.to_dict())`. -/
def FirestoreTransferService.get (h : Int) (db : Db) (code : String) :
    Option Transfer :=
  (dbLookup db code).map (Transfer.roundtrip h)

/-- `FirestoreTransferService.exists`: `doc.exists`. -/
def FirestoreTransferService.existsCode (db : Db) (code : String) : Bool :=
  (dbLookup db code).isSome

/-- `FirestoreTransferService.increment_download_count`: calls
`doc_ref.update({"downloadCount": firestore.Increment(1)})` and then
unconditionally `return True`.  Per the Firestore client's documented
semantics, `update` on a document that does not exist raises NotFound,
modelled as `Except.error`. -/
def FirestoreTransferService.increment_download_count (db : Db)
    (code : String) : Except String (Db × Bool) :=
  match dbLookup db code with
  | none => .error "NotFound"
  | some t =>
      .ok (dbInsert db code { t with download_count := t.download_count + 1 },
           true)

/-- `FirestoreTransferService.delete`: `document(code).delete()` (a no-op
when the document is absent) followed by an unconditional `return True`. -/
def FirestoreTransferService.delete (db : Db) (code : String) : Db × Bool :=
  (dbErase db code, true)

/-- `FirestoreTransferService.get_expired`: server-side query
`where("expiresAt", "<=", now.isoformat())` — a range filter on the
`expiresAt` field, which matches no document whose field is null and is
NON-strict at the boundary — then `Transfer.from_dict(doc.to_dict())` on
each match.  ISO-8601 string order agrees with chronological order. -/
def FirestoreTransferService.get_expired (h now : Int) (db : Db) :
    List Transfer :=
  (((dbValues db).filter (fun d =>
      match d.expires_at with
      | none => false
      | some e => decide (e ≤ now))).map (Transfer.roundtrip h))

/-! ## code_generator.py -/

/-- The code alphabet of `generate_code`, copied verbatim from the source:
uppercase letters and digits with the ambiguous `0 O I 1 L` removed. -/
def alphabet : List Char := "ABCDEFGHJKMNPQRSTUVWXYZ23456789".toList

/-- `secrets.choice(alpha)` with the draw `r` made explicit: the chosen
element is `alpha[r % len(alpha)]`, which ranges over every possible
outcome of the library call. -/
def secrets_choice (alpha : List Char) (r : Nat) : Char :=
  alpha.getD (r % alpha.length) 'A'

/-- `generate_code(length)`: one `secrets.choice(alphabet)` per position,
consuming draws `rand off, rand (off+1), …`. -/
def generate_code (rand : Nat → Nat) (off : Nat) (length : Nat) : String :=
  String.mk ((List.range length).map
    (fun i => secrets_choice alphabet (rand (off + i))))

/-- The retry loop of `generate_unique_code`, fuelled by the remaining
attempts (`max_attempts = 100` at the top call): each attempt draws a fresh
code of the requested length and returns it unless it collides; when the
budget is exhausted the function returns `generate_code(length + 2)`
WITHOUT checking it against `existing_codes`. -/
def gu_loop (rand : Nat → Nat) (ex : List String) (length : Nat) :
    Nat → Nat → String
  | 0, off => generate_code rand off (length + 2)
  | n + 1, off =>
    let code := generate_code rand off length
    if ex.contains code then gu_loop rand ex length n (off + length)
    else code

/-- `generate_unique_code(existing_codes, length)`: when `existing_codes`
is `None` a single unchecked draw; otherwise the 100-attempt loop. -/
def generate_unique_code (rand : Nat → Nat)
    (existing_codes : Option (List String)) (length : Nat) : String :=
  match existing_codes with
  | none => generate_code rand 0 length
  | some ex => gu_loop rand ex length 100 0

/-- `format_code_for_display`: codes of length ≤ 4 unchanged, otherwise a
hyphen at the midpoint. -/
def format_code_for_display (code : String) : String :=
  if code.length ≤ 4 then code
  else
    String.mk (code.toList.take (code.length / 2)) ++ "-" ++
      String.mk (code.toList.drop (code.length / 2))

/-! ## storage_service.py -/

abbrev StorageState : Type := List (String × List Nat)

/-- Filesystem lookup: path -> stored bytes. -/
def storageLookup : StorageState → String → Option (List Nat)
  | [], _ => none
  | (k, v) :: rest, c => if k = c then some v else storageLookup rest c

/-- `LocalStorageService.get_file`: `None` when the path does not exist on
disk, otherwise `file_path.read_bytes()` — the stored bytes, which are the
empty byte string for an empty file. -/
def LocalStorageService.get_file (storage : StorageState)
    (storage_path : String) : Option (List Nat) :=
  storageLookup storage storage_path

/-! ## routers/upload.py -/

structure HttpError where
  status : Nat
  detail : String
  deriving DecidableEq

/-- `get_file_extension`: empty when the filename has no dot, otherwise the
lower-cased text after the last dot (`rsplit('.', 1)[1].lower()`). -/
def get_file_extension (filename : String) : String :=
  if filename.toList.contains '.' then
    String.mk (((filename.toList.reverse.takeWhile
      (fun c => c ≠ '.')).reverse).map Char.toLower)
  else ""

/-- `validate_file_type`: 400 unless the extension is allowed; an unknown
MIME type with a valid extension is only logged, not rejected. -/
def validate_file_type (filename content_type : String) :
    Except HttpError String :=
  let extension := get_file_extension filename
  if ALLOWED_EXTENSIONS.contains extension then Except.ok extension
  else Except.error ⟨400, "File type not allowed"⟩

/-- `validate_file_size`: 413 when the size exceeds the tier limit. -/
def validate_file_size (file_size : Nat) (is_premium : Bool) :
    Except HttpError Unit :=
  let limit := if is_premium then FREE_FILE_SIZE_LIMIT_BYTES * 10
               else FREE_FILE_SIZE_LIMIT_BYTES
  if file_size > limit then Except.error ⟨413, "File too large"⟩
  else Except.ok ()

/-- The inline uniqueness-retry loop of `upload_file`:
`while code in existing_codes and attempts < 10: code = generate_code()`. -/
def upload_pick_loop (rand : Nat → Nat) (existing : List String) :
    String → Nat → Nat → String
  | code, _, 0 => code
  | code, off, n + 1 =>
    if existing.contains code then
      upload_pick_loop rand existing (generate_code rand off 8) (off + 8) n
    else code

/-- The code chosen by `upload_file`: a first draw, then at most ten
regenerations while it collides with an existing code. -/
def upload_pick_code (rand : Nat → Nat) (existing : List String) : String :=
  upload_pick_loop rand existing (generate_code rand 0 8) 8 10

structure UploadResponse where
  success : Bool
  code : String
  codeFormatted : String
  originalName : String
  fileType : String
  fileSizeBytes : Int
  expiresAt : Option Int
  message : String
  deriving DecidableEq

/-- `upload_file` (routers/upload.py): validate type and size, pick a code,
call the Storage Backend's `upload_file`, and only if that returned a
storage path construct the `Transfer` and call the Registry's `create`.
Any exception raised by the storage upload is caught by the handler's
`except` clause and surfaced as a 500 without touching the Registry.
`storageUpload` is the polymorphic backend call (its `Except.error` case is
the raise); `db` is the Registry state, threaded through. -/
def upload_file
    (storageUpload : List Nat → String → String → Except String String)
    (rand : Nat → Nat) (h now : Int) (db : Db)
    (filename content_type : String) (content : List Nat) :
    Except HttpError UploadResponse × Db :=
  match validate_file_type filename content_type with
  | .error e => (.error e, db)
  | .ok file_type =>
    let file_size := content.length
    match validate_file_size file_size false with
    | .error e => (.error e, db)
    | .ok _ =>
      let existing_codes := LocalTransferService.get_all_codes db
      let code := upload_pick_code rand existing_codes
      match storageUpload content code filename with
      | .error err => (.error ⟨500, "Upload failed: " ++ err⟩, db)
      | .ok storage_path =>
        let transfer := Transfer.make h now code filename file_type
          (file_size : Int) storage_path false none none none 0
        let db2 := (LocalTransferService.create db transfer).1
        (.ok { success := true, code := code,
               codeFormatted := format_code_for_display code,
               originalName := filename, fileType := file_type,
               fileSizeBytes := (file_size : Int),
               expiresAt := transfer.expires_at,
               message := "File uploaded successfully!" }, db2)

/-! ## routers/download.py -/

/-- Code normalisation `code.upper().replace("-", "")`. -/
def normalize_code (code : String) : String :=
  String.mk ((code.toList.map Char.toUpper).filter (fun c => c ≠ '-'))

inductive DlResult where
  | http (status : Nat) (detail : String)
  | file (content : List Nat) (media_type : String)
  deriving DecidableEq

/-- The `content_types` lookup of `download_file`, with its
octet-stream default. -/
def content_type_for (ft : String) : String :=
  if ft = "pdf" then "application/pdf"
  else if ft = "cbz" then "application/x-cbz"
  else if ft = "cbr" then "application/x-cbr"
  else if ft = "epub" then "application/epub+zip"
  else "application/octet-stream"

/-- Python truthiness of an `Optional[bytes]` value: both `None` and the
empty byte string `b""` are falsy, so `if not file_content:` cannot tell
them apart. -/
def py_falsy : Option (List Nat) → Bool
  | none => true
  | some b => b.isEmpty

/-- `download_file` (routers/download.py): normalise the code, look up the
transfer (404 when absent), reject expired transfers (410), fetch the
bytes from storage and take the `File not found in storage` 404 branch
whenever `not file_content` — i.e. when the lookup failed OR the stored
bytes are empty; otherwise increment the download count and serve the
bytes. -/
def download_file (h now : Int) (db : Db) (storage : StorageState)
    (code : String) : DlResult × Db :=
  let ncode := normalize_code code
  match LocalTransferService.get h db ncode with
  | none => (.http 404 "Code not found", db)
  | some transfer =>
    if transfer.is_expired now then (.http 410 "Transfer expired", db)
    else
      let file_content :=
        LocalStorageService.get_file storage transfer.storage_path
      if py_falsy file_content then
        (.http 404 "File not found in storage", db)
      else
        let db2 := (LocalTransferService.increment_download_count db ncode).1
        (.file (file_content.getD []) (content_type_for transfer.file_type),
         db2)

/-! ## Registry operation traces (for the downloadCount invariant) -/

/-- One Registry call, for reasoning about operation sequences on the
local store. -/
inductive RegOp where
  | create (t : Transfer)
  | getOp (code : String)
  | existsOp (code : String)
  | increment (code : String)
  | deleteOp (code : String)
  | listExpired (now : Int)
  | getAllCodes
  deriving DecidableEq

/-- The state change of one Registry call on the local JSON store; the
read-only calls leave the store as they found it. -/
def RegOp.step (db : Db) : RegOp → Db
  | .create t => (LocalTransferService.create db t).1
  | .increment c => (LocalTransferService.increment_download_count db c).1
  | .deleteOp c => (LocalTransferService.delete db c).1
  | .getOp _ => db
  | .existsOp _ => db
  | .listExpired _ => db
  | .getAllCodes => db

/-- Folding a sequence of Registry calls over the store. -/
def applyOps (db : Db) : List RegOp → Db
  | [] => db
  | op :: rest => applyOps (RegOp.step db op) rest

/-- The caller-upheld uniqueness convention: along the trace, `create` is
only ever invoked for a code that is absent at that point. -/
def createsFresh (db : Db) : List RegOp → Bool
  | [] => true
  | op :: rest =>
    (match op with
     | .create t => (dbLookup db t.code).isNone
     | _ => true) && createsFresh (RegOp.step db op) rest

/-- The record for `c` exists at every state the trace passes through,
the initial and final states included. -/
def presentThroughout (db : Db) (c : String) : List RegOp → Bool
  | [] => (dbLookup db c).isSome
  | op :: rest =>
    (dbLookup db c).isSome && presentThroughout (RegOp.step db op) c rest

/-- The stored `downloadCount` for a code (0 when absent). -/
def countAt (db : Db) (c : String) : Int :=
  ((dbLookup db c).map Transfer.download_count).getD 0

/-- C1: a `Transfer` constructed with `isPremium = false` and no explicit
`expiresAt` gets `expiresAt = createdAt + FREE_EXPIRY_HOURS` exactly (with
`createdAt` the explicit value when given, else the construction time);
with `isPremium = true` and no explicit `expiresAt`, `expiresAt` is null. -/
theorem C1_construction_expiry (h now : Int) (code orig ft : String)
    (sz : Int) (sp : String) (uid : Option String) (ca : Option Int)
    (dc : Int) :
    (Transfer.make h now code orig ft sz sp false uid ca none dc).expires_at
        = some (ca.getD now + h * 3600) ∧
    (Transfer.make h now code orig ft sz sp true uid ca none dc).expires_at
        = none := by
  constructor <;> simp [Transfer.make]

/-- C2: `is_expired()` is true iff `expiresAt` is non-null and now is
strictly past it; it is false at `now = expiresAt` exactly, true one
second later, and always false when `expiresAt` is null. -/
theorem C2_is_expired_strict (t : Transfer) (now e : Int) :
    (t.is_expired now = true ↔ ∃ x, t.expires_at = some x ∧ x < now) ∧
    ({ t with expires_at := some e }.is_expired e = false) ∧
    ({ t with expires_at := some e }.is_expired (e + 1) = true) ∧
    ({ t with expires_at := none }.is_expired now = false) := by
  refine ⟨?_, by simp [Transfer.is_expired], by simp [Transfer.is_expired],
    by simp [Transfer.is_expired]⟩
  cases hx : t.expires_at with
  | none => simp [Transfer.is_expired, hx]
  | some x => simp [Transfer.is_expired, hx]

/-! ## Supporting lemmas -/

/-- A choice from a nonempty alphabet is a member of it. -/
theorem secrets_choice_mem (alpha : List Char) (r : Nat)
    (hne : alpha ≠ []) : secrets_choice alpha r ∈ alpha := by
  unfold secrets_choice
  have hlen : 0 < alpha.length := List.length_pos.mpr hne
  have hlt : r % alpha.length < alpha.length := Nat.mod_lt _ hlen
  rw [List.getD_eq_getElem _ _ hlt]
  exact List.getElem_mem hlt

/-- Generated codes have the requested length. -/
theorem generate_code_length (rand : Nat → Nat) (off length : Nat) :
    (generate_code rand off length).length = length := by
  show (List.map _ (List.range length)).length = length
  simp

/-- Every character of a generated code is drawn from the alphabet. -/
theorem generate_code_mem (rand : Nat → Nat) (off length : Nat) :
    ∀ ch ∈ (generate_code rand off length).toList, ch ∈ alphabet := by
  intro ch hch
  have hch' : ch ∈ List.map
      (fun i => secrets_choice alphabet (rand (off + i)))
      (List.range length) := hch
  obtain ⟨i, _, rfl⟩ := List.mem_map.mp hch'
  exact secrets_choice_mem _ _ (by decide)

/-- `is_expired` unfolded to a proposition. -/
theorem is_expired_iff (t : Transfer) (now : Int) :
    t.is_expired now = true ↔ ∃ x, t.expires_at = some x ∧ x < now := by
  cases hx : t.expires_at with
  | none => simp [Transfer.is_expired, hx]
  | some x => simp [Transfer.is_expired, hx]

/-- Every `Transfer` the constructor can produce has a non-null expiry
unless it is premium. -/
theorem make_premium_or_expiry (h now : Int) (code orig ft : String)
    (sz : Int) (sp : String) (prem : Bool) (uid : Option String)
    (ca ea : Option Int) (dc : Int) :
    (Transfer.make h now code orig ft sz sp prem uid ca ea dc).is_premium
      = true ∨
    (Transfer.make h now code orig ft sz sp prem uid ca ea dc).expires_at
      ≠ none := by
  cases prem <;> cases ea <;> simp [Transfer.make]

/-- The to_dict/from_dict round trip is the identity on every document the
constructor can produce (premium, or non-null expiry). -/
theorem roundtrip_eq (h : Int) (d : Transfer)
    (hd : d.is_premium = true ∨ d.expires_at ≠ none) :
    Transfer.roundtrip h d = d := by
  obtain ⟨c, o, ft, sz, sp, prem, uid, ca, ea, dc⟩ := d
  unfold Transfer.roundtrip Transfer.make
  cases ea with
  | some e => simp
  | none =>
      rcases hd with hp | hn
      · simp only [] at hp
        subst hp
        simp
      · simp at hn

/-- Lookup after erasing a key. -/
theorem dbLookup_erase (db : Db) (c c' : String) :
    dbLookup (dbErase db c) c' =
      if c = c' then none else dbLookup db c' := by
  induction db with
  | nil => simp [dbErase, dbLookup]
  | cons p rest ih =>
      obtain ⟨k, v⟩ := p
      by_cases hkc : k = c
      · subst hkc
        by_cases hcc : k = c'
        · subst hcc
          simp [dbErase, List.filter_cons, dbLookup] at *
          simpa [dbErase] using ih
        · simp [dbErase, List.filter_cons, dbLookup, hcc] at *
          simpa [dbErase, hcc] using ih
      · by_cases hkc' : k = c'
        · subst hkc'
          have hcc : ¬(c = k) := fun hx => hkc hx.symm
          simp [dbErase, List.filter_cons, dbLookup, hkc, hcc]
        · simp [dbErase, List.filter_cons, dbLookup, hkc, hkc'] at *
          simpa [dbErase] using ih

/-- Lookup after a dict update. -/
theorem dbLookup_insert (db : Db) (c c' : String) (t : Transfer) :
    dbLookup (dbInsert db c t) c' =
      if c = c' then some t else dbLookup db c' := by
  unfold dbInsert
  have happ : ∀ (xs ys : Db) (z : String),
      dbLookup (xs ++ ys) z =
        match dbLookup xs z with
        | some v => some v
        | none => dbLookup ys z := by
    intro xs ys z
    induction xs with
    | nil => simp [dbLookup]
    | cons p rest ih =>
        obtain ⟨k, v⟩ := p
        by_cases hk : k = z <;> simp [dbLookup, hk, ih]
  rw [happ, dbLookup_erase]
  by_cases hcc : c = c'
  · simp [hcc, dbLookup]
  · simp only [hcc, if_false]
    cases dbLookup db c' <;> simp [dbLookup, hcc]

/-- Erasing an absent key is the identity. -/
theorem dbErase_absent (db : Db) (c : String)
    (habs : dbLookup db c = none) : dbErase db c = db := by
  induction db with
  | nil => rfl
  | cons p rest ih =>
      obtain ⟨k, v⟩ := p
      by_cases hk : k = c
      · simp [dbLookup, hk] at habs
      · simp only [dbLookup, if_neg hk] at habs
        have hrest := ih habs
        unfold dbErase at hrest ⊢
        rw [List.filter_cons, if_pos (by simp [hk]), hrest]

/-- Unfolding equation for one iteration of the retry loop. -/
theorem gu_loop_succ (rand : Nat → Nat) (ex : List String)
    (length n off : Nat) :
    gu_loop rand ex length (n + 1) off =
      if ex.contains (generate_code rand off length)
      then gu_loop rand ex length n (off + length)
      else generate_code rand off length := rfl

/-- The generate-unique retry loop either returns a fresh code of the
requested length, or every attempt in the budget collided and it returns
the unchecked longer fallback code. -/
theorem gu_loop_spec (rand : Nat → Nat) (ex : List String) (length : Nat) :
    ∀ (fuel off : Nat),
    ((gu_loop rand ex length fuel off).length = length ∧
      ex.contains (gu_loop rand ex length fuel off) = false) ∨
    ((∀ i < fuel,
        ex.contains (generate_code rand (off + i * length) length) = true) ∧
      gu_loop rand ex length fuel off =
        generate_code rand (off + fuel * length) (length + 2)) := by
  intro fuel
  induction fuel with
  | zero =>
      intro off
      right
      exact ⟨fun i hi => absurd hi (Nat.not_lt_zero i), by simp [gu_loop]⟩
  | succ n ih =>
      intro off
      cases hcol : ex.contains (generate_code rand off length) with
      | false =>
          rw [gu_loop_succ, hcol, if_neg (by simp)]
          exact Or.inl ⟨generate_code_length rand off length, hcol⟩
      | true =>
          rw [gu_loop_succ, hcol, if_pos rfl]
          rcases ih (off + length) with hgood | ⟨hall, heq⟩
          · exact Or.inl hgood
          · right
            refine ⟨?_, ?_⟩
            · intro i hi
              cases i with
              | zero => simpa using hcol
              | succ j =>
                  have hj : j < n := Nat.lt_of_succ_lt_succ hi
                  have hc := hall j hj
                  have harith : off + length + j * length =
                      off + (j + 1) * length := by ring
                  rwa [harith] at hc
            · have harith : off + length + n * length =
                  off + (n + 1) * length := by ring
              rw [heq, harith]

/-- Presence at the start of a trace. -/
theorem presentThroughout_head (db : Db) (c : String) (ops : List RegOp)
    (hp : presentThroughout db c ops = true) :
    (dbLookup db c).isSome = true := by
  cases ops with
  | nil => exact hp
  | cons op rest => exact ((Bool.and_eq_true _ _).mp hp).1

/-- Effect of one Registry call on a stored counter, under the caller's
uniqueness convention (`create` only for a fresh code) and presence of the
record before and after the call. -/
theorem countAt_step (db : Db) (op : RegOp) (c : String)
    (hfresh : ∀ t, op = RegOp.create t → dbLookup db t.code = none)
    (hpre : (dbLookup db c).isSome = true)
    (hpost : (dbLookup (RegOp.step db op) c).isSome = true) :
    countAt db c ≤ countAt (RegOp.step db op) c ∧
    (op ≠ RegOp.increment c →
      countAt (RegOp.step db op) c = countAt db c) := by
  cases op with
  | create t =>
      have hf := hfresh t rfl
      have hne : t.code ≠ c := by
        intro hx
        rw [hx] at hf
        rw [hf] at hpre
        simp at hpre
      have heq : countAt (RegOp.step db (RegOp.create t)) c = countAt db c := by
        simp only [countAt, RegOp.step, LocalTransferService.create]
        rw [dbLookup_insert, if_neg hne]
      exact ⟨le_of_eq heq.symm, fun _ => heq⟩
  | getOp code => exact ⟨le_refl _, fun _ => rfl⟩
  | existsOp code => exact ⟨le_refl _, fun _ => rfl⟩
  | listExpired now => exact ⟨le_refl _, fun _ => rfl⟩
  | getAllCodes => exact ⟨le_refl _, fun _ => rfl⟩
  | increment c' =>
      by_cases hcc : c' = c
      · subst hcc
        cases ht : dbLookup db c' with
        | none => rw [ht] at hpre; simp at hpre
        | some t =>
            have hstep : RegOp.step db (RegOp.increment c') =
                dbInsert db c'
                  { t with download_count := t.download_count + 1 } := by
              simp only [RegOp.step,
                LocalTransferService.increment_download_count, ht]
            constructor
            · unfold countAt
              rw [hstep, dbLookup_insert, if_pos rfl, ht]
              simp
            · intro hne
              exact absurd rfl hne
      · cases ht : dbLookup db c' with
        | none =>
            have hstep : RegOp.step db (RegOp.increment c') = db := by
              simp only [RegOp.step,
                LocalTransferService.increment_download_count, ht]
            rw [hstep]
            exact ⟨le_refl _, fun _ => rfl⟩
        | some t =>
            have hstep : RegOp.step db (RegOp.increment c') =
                dbInsert db c'
                  { t with download_count := t.download_count + 1 } := by
              simp only [RegOp.step,
                LocalTransferService.increment_download_count, ht]
            have heq : countAt (RegOp.step db (RegOp.increment c')) c
                = countAt db c := by
              unfold countAt
              rw [hstep, dbLookup_insert, if_neg hcc]
            exact ⟨le_of_eq heq.symm, fun _ => heq⟩
  | deleteOp c' =>
      by_cases hex : (dbLookup db c').isSome = true
      · have hstep : RegOp.step db (RegOp.deleteOp c') = dbErase db c' := by
          simp only [RegOp.step, LocalTransferService.delete]
          rw [if_pos hex]
        have hne : c' ≠ c := by
          intro hx
          subst hx
          rw [hstep, dbLookup_erase, if_pos rfl] at hpost
          simp at hpost
        have heq : countAt (RegOp.step db (RegOp.deleteOp c')) c
            = countAt db c := by
          unfold countAt
          rw [hstep, dbLookup_erase, if_neg hne]
        exact ⟨le_of_eq heq.symm, fun _ => heq⟩
      · have hstep : RegOp.step db (RegOp.deleteOp c') = db := by
          simp only [RegOp.step, LocalTransferService.delete]
          rw [if_neg hex]
        rw [hstep]
        exact ⟨le_refl _, fun _ => rfl⟩

/-! ## Concrete ground data for witnesses -/

/-- A concrete free-tier transfer (24h expiry already filled in by the
constructor rule). -/
def sampleTransfer : Transfer :=
  { code := "CODEA", original_name := "book.pdf", file_type := "pdf",
    file_size_bytes := 1000, storage_path := "free/CODEA/book.pdf",
    is_premium := false, user_id := none, created_at := 0,
    expires_at := some 86400, download_count := 0 }

/-- A one-record store holding `sampleTransfer`. -/
def sampleDb : Db := [("CODEA", sampleTransfer)]

/-! ## Claims -/

/-- C3: in the upload flow the Registry's `create` runs only after the
Storage Backend's `upload` returned a storage path: either the Registry
state is unchanged (every validation failure and every storage raise), or
the storage upload succeeded with some path and exactly one new record was
created, whose `storagePath` is that successful path — so no metadata
record from the create path ever points at bytes that failed to persist. -/
theorem C3_upload_atomic
    (su : List Nat → String → String → Except String String)
    (rand : Nat → Nat) (h now : Int) (db : Db)
    (filename content_type : String) (content : List Nat) :
    (upload_file su rand h now db filename content_type content).2 = db ∨
    (∃ path t,
      su content
          (upload_pick_code rand (LocalTransferService.get_all_codes db))
          filename = Except.ok path ∧
      t.storage_path = path ∧
      (upload_file su rand h now db filename content_type content).2 =
        dbInsert db t.code t) := by
  unfold upload_file
  cases hvt : validate_file_type filename content_type with
  | error e => left; simp [hvt]
  | ok ft =>
    cases hvs : validate_file_size content.length false with
    | error e => left; simp [hvt, hvs]
    | ok u =>
      cases hsu : su content
          (upload_pick_code rand (LocalTransferService.get_all_codes db))
          filename with
      | error err => left; simp [hvt, hvs, hsu]
      | ok path =>
        right
        refine ⟨path,
          Transfer.make h now
            (upload_pick_code rand (LocalTransferService.get_all_codes db))
            filename ft (content.length : Int) path false none none none 0,
          rfl, by simp [Transfer.make], ?_⟩
        simp [hvt, hvs, hsu, LocalTransferService.create, Transfer.make]

/-- C4 (amended): the local variant's `incrementDownloadCount` increments
the stored counter by exactly 1 and returns true when the code is present,
and returns false without raising and without modifying state when absent.
The Firestore variant also increments by 1 when the document exists and
returns true unconditionally; on an absent code, however, its underlying
document `update` raises NotFound instead of returning false. -/
theorem C4_increment_download_count (db : Db) (code : String) :
    (∀ t, dbLookup db code = some t →
      LocalTransferService.increment_download_count db code =
        (dbInsert db code { t with download_count := t.download_count + 1 },
         true) ∧
      FirestoreTransferService.increment_download_count db code =
        Except.ok
          (dbInsert db code
            { t with download_count := t.download_count + 1 }, true) ∧
      countAt (LocalTransferService.increment_download_count db code).1 code
        = countAt db code + 1) ∧
    (dbLookup db code = none →
      LocalTransferService.increment_download_count db code = (db, false) ∧
      FirestoreTransferService.increment_download_count db code =
        Except.error "NotFound") := by
  constructor
  · intro t ht
    refine ⟨?_, ?_, ?_⟩
    · simp [LocalTransferService.increment_download_count, ht]
    · simp [FirestoreTransferService.increment_download_count, ht]
    · unfold countAt
      simp only [LocalTransferService.increment_download_count, ht]
      rw [dbLookup_insert, if_pos rfl]
      simp
  · intro ht
    exact ⟨by simp [LocalTransferService.increment_download_count, ht],
           by simp [FirestoreTransferService.increment_download_count, ht]⟩

/-- C4 counterexample: on an absent code the Firestore variant does not
return false — its document update raises NotFound (and had it not raised,
the method would still have returned true unconditionally). -/
theorem C4_counterexample :
    FirestoreTransferService.increment_download_count [] "ABCDEFGH" =
      Except.error "NotFound" := rfl

/-- C4 witness at concrete inputs. -/
theorem C4_witness :
    LocalTransferService.increment_download_count sampleDb "CODEA" =
      (dbInsert sampleDb "CODEA"
        { sampleTransfer with
            download_count := sampleTransfer.download_count + 1 }, true) ∧
    LocalTransferService.increment_download_count sampleDb "ZZZZ" =
      (sampleDb, false) ∧
    FirestoreTransferService.increment_download_count sampleDb "ZZZZ" =
      Except.error "NotFound" := by
  refine ⟨?_, ?_, ?_⟩
  · exact ((C4_increment_download_count sampleDb "CODEA").1 sampleTransfer
      (by decide)).1
  · exact ((C4_increment_download_count sampleDb "ZZZZ").2 (by decide)).1
  · exact ((C4_increment_download_count sampleDb "ZZZZ").2 (by decide)).2

/-- C5 (amended): on both variants, `get` and `exists` on an absent code
return not-found and false and never raise; the local `delete` returns
true exactly when a record existed (false, no write, when absent); the
Firestore `delete` removes the document when present but returns true
unconditionally, including when no record existed. -/
theorem C5_absent_code (h : Int) (db : Db) (code : String) :
    (dbLookup db code = none →
      LocalTransferService.get h db code = none ∧
      FirestoreTransferService.get h db code = none ∧
      LocalTransferService.existsCode db code = false ∧
      FirestoreTransferService.existsCode db code = false ∧
      LocalTransferService.delete db code = (db, false) ∧
      FirestoreTransferService.delete db code = (db, true)) ∧
    ((dbLookup db code).isSome = true →
      LocalTransferService.delete db code = (dbErase db code, true) ∧
      FirestoreTransferService.delete db code = (dbErase db code, true)) := by
  constructor
  · intro ht
    refine ⟨?_, ?_, ?_, ?_, ?_, ?_⟩
    · simp [LocalTransferService.get, ht]
    · simp [FirestoreTransferService.get, ht]
    · simp [LocalTransferService.existsCode, ht]
    · simp [FirestoreTransferService.existsCode, ht]
    · simp [LocalTransferService.delete, ht]
    · simp [FirestoreTransferService.delete, dbErase_absent db code ht]
  · intro ht
    exact ⟨by simp [LocalTransferService.delete, ht], rfl⟩

/-- C5 counterexample: with no record at all, the Firestore `delete` still
returns true, refuting "delete(code) returns true exactly when a record
for that code existed before the call" for that variant. -/
theorem C5_counterexample :
    dbLookup [] "ABCDEFGH" = none ∧
    FirestoreTransferService.delete [] "ABCDEFGH" = ([], true) := ⟨rfl, rfl⟩

/-- C5 witness at concrete inputs. -/
theorem C5_witness :
    (LocalTransferService.get 24 sampleDb "ZZZZ" = none ∧
     FirestoreTransferService.get 24 sampleDb "ZZZZ" = none ∧
     LocalTransferService.existsCode sampleDb "ZZZZ" = false ∧
     FirestoreTransferService.existsCode sampleDb "ZZZZ" = false ∧
     LocalTransferService.delete sampleDb "ZZZZ" = (sampleDb, false) ∧
     FirestoreTransferService.delete sampleDb "ZZZZ" = (sampleDb, true)) ∧
    (LocalTransferService.delete sampleDb "CODEA" =
       (dbErase sampleDb "CODEA", true) ∧
     FirestoreTransferService.delete sampleDb "CODEA" =
       (dbErase sampleDb "CODEA", true)) :=
  ⟨(C5_absent_code 24 sampleDb "ZZZZ").1 (by decide),
   (C5_absent_code 24 sampleDb "CODEA").2 (by decide)⟩

/-- Mapping a function that fixes every member is the identity. -/
theorem map_id_of_mem {α : Type} (l : List α) (f : α → α)
    (hf : ∀ a ∈ l, f a = a) : l.map f = l := by
  induction l with
  | nil => rfl
  | cons x xs ih =>
      simp only [List.map_cons, hf x (List.mem_cons_self x xs)]
      rw [ih (fun a ha => hf a (List.mem_cons_of_mem x ha))]

/-- C6 (amended): the local `get_expired` returns exactly the stored
records whose `expiresAt` is non-null and STRICTLY earlier than now; the
Firestore variant's query uses a non-strict `<=`, so it returns exactly
the stored records with non-null `expiresAt ≤ now` — including a record
whose expiry is the current instant.  Stated for stores whose records
satisfy the constructor invariant (premium, or non-null expiry), under
which the read-path from_dict round trip is the identity. -/
theorem C6_get_expired (h now : Int) (db : Db) (t : Transfer)
    (hdb : ∀ d ∈ dbValues db, d.is_premium = true ∨ d.expires_at ≠ none) :
    (t ∈ LocalTransferService.get_expired h now db ↔
      t ∈ dbValues db ∧ ∃ e, t.expires_at = some e ∧ e < now) ∧
    (t ∈ FirestoreTransferService.get_expired h now db ↔
      t ∈ dbValues db ∧ ∃ e, t.expires_at = some e ∧ e ≤ now) := by
  have hmap : (dbValues db).map (Transfer.roundtrip h) = dbValues db :=
    map_id_of_mem (dbValues db) _ (fun d hd => roundtrip_eq h d (hdb d hd))
  constructor
  · unfold LocalTransferService.get_expired
    rw [hmap, List.mem_filter]
    exact and_congr_right (fun _ => is_expired_iff t now)
  · unfold FirestoreTransferService.get_expired
    have hmap2 : ((dbValues db).filter (fun d =>
        match d.expires_at with
        | none => false
        | some e => decide (e ≤ now))).map (Transfer.roundtrip h) =
        (dbValues db).filter (fun d =>
        match d.expires_at with
        | none => false
        | some e => decide (e ≤ now)) := by
      apply map_id_of_mem
      intro d hd
      have hp := (List.mem_filter.mp hd).2
      apply roundtrip_eq
      right
      cases hxx : d.expires_at with
      | none => simp [hxx] at hp
      | some e => simp [hxx]
    rw [hmap2, List.mem_filter]
    apply and_congr_right
    intro _
    cases hxx : t.expires_at with
    | none => simp [hxx]
    | some e => simp [hxx]

/-- A record whose expiry is exactly the query instant. -/
def boundaryTransfer : Transfer :=
  { code := "CODEB", original_name := "b.pdf", file_type := "pdf",
    file_size_bytes := 1, storage_path := "free/CODEB/b.pdf",
    is_premium := false, user_id := none, created_at := 0,
    expires_at := some 100, download_count := 0 }

/-- C6 counterexample: a record with `expiresAt` equal to the current time
(not strictly earlier) is included by the Firestore `get_expired`, because
the query filter is `expiresAt <= now`, refuting the claim for that
variant (the record is not even expired: `is_expired` is false there). -/
theorem C6_counterexample :
    boundaryTransfer.expires_at = some 100 ∧
    boundaryTransfer.is_expired 100 = false ∧
    boundaryTransfer ∈
      FirestoreTransferService.get_expired 24 100
        [("CODEB", boundaryTransfer)] := by
  refine ⟨rfl, rfl, by decide⟩

/-- C6 witness at concrete inputs. -/
theorem C6_witness :
    (sampleTransfer ∈ LocalTransferService.get_expired 24 100000 sampleDb ↔
      sampleTransfer ∈ dbValues sampleDb ∧
        ∃ e, sampleTransfer.expires_at = some e ∧ e < 100000) ∧
    (sampleTransfer ∈
        FirestoreTransferService.get_expired 24 100000 sampleDb ↔
      sampleTransfer ∈ dbValues sampleDb ∧
        ∃ e, sampleTransfer.expires_at = some e ∧ e ≤ 100000) :=
  C6_get_expired 24 100000 sampleDb sampleTransfer (by decide)

/-- C7 (amended): along any sequence of Registry operations in which
`create` is only invoked for codes absent at that point (the caller-upheld
uniqueness convention, which the upload flow maintains by checking
`get_all_codes` first), the stored `downloadCount` of a record that exists
throughout never decreases, and it is unchanged unless the sequence
contains `incrementDownloadCount` for that code.  Without the freshness
convention the claim is false — see the counterexample: a duplicate
`create` silently overwrites and resets the counter. -/
theorem C7_count_monotone (db : Db) (ops : List RegOp) (c : String)
    (hfresh : createsFresh db ops = true)
    (hpres : presentThroughout db c ops = true) :
    countAt db c ≤ countAt (applyOps db ops) c ∧
    (RegOp.increment c ∉ ops →
      countAt (applyOps db ops) c = countAt db c) := by
  induction ops generalizing db with
  | nil => exact ⟨le_refl _, fun _ => rfl⟩
  | cons op rest ih =>
      simp only [createsFresh] at hfresh
      obtain ⟨hf1, hf2⟩ := (Bool.and_eq_true _ _).mp hfresh
      simp only [presentThroughout] at hpres
      obtain ⟨hp1, hp2⟩ := (Bool.and_eq_true _ _).mp hpres
      have hpost : (dbLookup (RegOp.step db op) c).isSome = true :=
        presentThroughout_head _ _ _ hp2
      have hfr : ∀ t, op = RegOp.create t → dbLookup db t.code = none := by
        intro t hop
        subst hop
        simpa using hf1
      obtain ⟨hle1, heq1⟩ := countAt_step db op c hfr hp1 hpost
      obtain ⟨hle2, heq2⟩ := ih (RegOp.step db op) hf2 hp2
      constructor
      · exact le_trans hle1 (by simpa [applyOps] using hle2)
      · intro hnotin
        have hop_ne : op ≠ RegOp.increment c := by
          intro hx
          exact hnotin (hx ▸ List.mem_cons_self _ _)
        have hnotin2 : RegOp.increment c ∉ rest :=
          fun hx => hnotin (List.mem_cons_of_mem _ hx)
        have h1 : countAt (applyOps db (op :: rest)) c
            = countAt (RegOp.step db op) c := by
          simpa [applyOps] using heq2 hnotin2
        rw [h1, heq1 hop_ne]

/-- C7 counterexample: `create` overwrites silently, so a trace that
creates a code, increments it, and creates the same code again leaves the
record present at every step yet drops its stored `downloadCount` from 1
back to 0 — a decrease caused by an operation other than
`incrementDownloadCount`, refuting the claim over unrestricted operation
sequences. -/
theorem C7_counterexample :
    countAt (applyOps [] [RegOp.create sampleTransfer,
      RegOp.increment "CODEA"]) "CODEA" = 1 ∧
    countAt (applyOps [] [RegOp.create sampleTransfer,
      RegOp.increment "CODEA", RegOp.create sampleTransfer]) "CODEA" = 0 ∧
    (dbLookup (applyOps [] [RegOp.create sampleTransfer,
      RegOp.increment "CODEA"]) "CODEA").isSome = true := by
  refine ⟨by decide, by decide, by decide⟩

/-- C7 witness at concrete inputs. -/
theorem C7_witness :
    countAt sampleDb "CODEA" ≤
      countAt (applyOps sampleDb [RegOp.increment "CODEA"]) "CODEA" ∧
    (RegOp.increment "CODEA" ∉ [RegOp.increment "CODEA"] →
      countAt (applyOps sampleDb [RegOp.increment "CODEA"]) "CODEA"
        = countAt sampleDb "CODEA") :=
  C7_count_monotone sampleDb [RegOp.increment "CODEA"] "CODEA"
    (by decide) (by decide)

/-- C8 (amended): every generated code has exactly the requested length
and draws every character from the generator's alphabet — which is the set
of uppercase letters and digits with `0 O I 1 L` excluded, and has 31
symbols, not 32 (each position carries log2 31 ≈ 4.95 bits). -/
theorem C8_generate_code (rand : Nat → Nat) (off length : Nat) :
    (generate_code rand off length).length = length ∧
    (∀ ch ∈ (generate_code rand off length).toList, ch ∈ alphabet) ∧
    alphabet.length = 31 ∧
    alphabet = "ABCDEFGHIJKLMNOPQRSTUVWXYZ0123456789".toList.filter
      (fun ch => !(['0', 'O', 'I', '1', 'L'].contains ch)) :=
  ⟨generate_code_length rand off length, generate_code_mem rand off length,
   by decide, by decide⟩

/-- C8 counterexample: the alphabet described by the claim (uppercase
letters and digits minus the five ambiguous characters) has 31 symbols,
not 32. -/
theorem C8_counterexample :
    alphabet.length = 31 ∧ ¬alphabet.length = 32 := by decide

/-- C9 (amended): `generateUnique` either returns a code of the requested
length that is not in `existingCodes`, or — only when all 100 attempts at
the requested length collided — falls back to a code of length+2 that is
NOT checked against `existingCodes` (so it shrinks but does not eliminate
the collision probability); it never fails outright (it is total). -/
theorem C9_generate_unique (rand : Nat → Nat) (ex : List String)
    (length : Nat) :
    ((generate_unique_code rand (some ex) length).length = length ∧
      ex.contains (generate_unique_code rand (some ex) length) = false) ∨
    ((∀ i < 100,
        ex.contains (generate_code rand (i * length) length) = true) ∧
      generate_unique_code rand (some ex) length =
        generate_code rand (100 * length) (length + 2)) := by
  have hspec := gu_loop_spec rand ex length 100 0
  simpa [generate_unique_code] using hspec

/-- C9 counterexample: with the sampling outcome that always draws the
first alphabet character, every attempt at length 8 yields "AAAAAAAA";
against the 2-element set {"AAAAAAAA", "AAAAAAAAAA"} (far smaller than
alphabet^8) the length-10 fallback is "AAAAAAAAAA", which IS in the input
set — refuting "never returns a code present in its input set". -/
theorem C9_counterexample :
    (["AAAAAAAA", "AAAAAAAAAA"] : List String).length <
      alphabet.length ^ 8 ∧
    generate_unique_code (fun _ => 0)
        (some ["AAAAAAAA", "AAAAAAAAAA"]) 8 ∈
      (["AAAAAAAA", "AAAAAAAAAA"] : List String) := by
  constructor
  · decide
  · decide

/-- C10: whenever the stored content at a transfer's storage path is the
empty byte string, the Storage Backend's `get_file` returns those empty
bytes (not its `None` not-found signal), yet the download endpoint's
`if not file_content:` treats them as missing and takes the 404
"File not found in storage" branch instead of serving the zero-byte
file. -/
theorem C10_empty_file_404 (h now : Int) (db : Db)
    (storage : StorageState) (code : String) (t : Transfer)
    (hget : LocalTransferService.get h db (normalize_code code) = some t)
    (hexp : t.is_expired now = false)
    (hstore : LocalStorageService.get_file storage t.storage_path
      = some []) :
    LocalStorageService.get_file storage t.storage_path = some [] ∧
    (download_file h now db storage code).1 =
      DlResult.http 404 "File not found in storage" := by
  refine ⟨hstore, ?_⟩
  simp only [download_file, hget, hexp, hstore, py_falsy]
  simp

/-- C10 witness at concrete inputs. -/
theorem C10_witness :
    LocalTransferService.get 24 sampleDb (normalize_code "CODEA")
      = some sampleTransfer ∧
    sampleTransfer.is_expired 10 = false ∧
    LocalStorageService.get_file [("free/CODEA/book.pdf", [])]
      sampleTransfer.storage_path = some [] ∧
    (download_file 24 10 sampleDb [("free/CODEA/book.pdf", [])]
        "CODEA").1 =
      DlResult.http 404 "File not found in storage" := by
  refine ⟨by decide, by decide, by decide, ?_⟩
  exact (C10_empty_file_404 24 10 sampleDb [("free/CODEA/book.pdf", [])]
    "CODEA" sampleTransfer (by decide) (by decide) (by decide)).2

end ImagineRead
